import Mathlib

/-!
Shallow embedding of the simple-include preprocessor (src/main.rs).

Paths are modelled component-wise, mirroring Rust `std::path::Component`
on Unix (no prefix components).  The filesystem is an association list
from paths to file entries; a file entry is either fully decodable text
or a stream of decodable lines followed by a read error of some kind
(the way `BufRead::lines` surfaces undecodable bytes mid-stream).
-/

/-- A single path component, as in Rust `std::path::Component` (Unix). -/
inductive PathComp
  | rootDir
  | curDir
  | parentDir
  | normal (s : String)
deriving DecidableEq, Repr

/-- A path is its list of components; Rust `Path` equality is component-wise. -/
abbrev RPath := List PathComp

/-- Shorthand for a normal (named) component. -/
def pn : String → PathComp := PathComp.normal

/-- `PathBuf::push` of one component: pushing the root component replaces
the whole path (an absolute path replaces the current path); any other
component is appended. -/
def pushComp (r : RPath) (c : PathComp) : RPath :=
  if c = PathComp.rootDir then [PathComp.rootDir] else r ++ [c]

/-- `PathBuf::pop`: truncate to the parent; a no-op on an empty path and
on the bare root (whose parent is `None`). -/
def popPath (r : RPath) : RPath :=
  if r = [] ∨ r = [PathComp.rootDir] then r else r.dropLast

/-- One step of `normalize_path`'s loop over components (main.rs:294-303):
a parent-directory component pops, a current-directory component is
dropped, everything else is pushed. -/
def normStep (r : RPath) (c : PathComp) : RPath :=
  match c with
  | PathComp.parentDir => popPath r
  | PathComp.curDir => r
  | _ => pushComp r c

/-- `normalize_path` (main.rs:290-307): fold the step over the components,
starting from an empty `PathBuf`. -/
def normalize_path (p : RPath) : RPath :=
  p.foldl normStep []

/-- `Path::join` / `PathBuf::push` of a whole path: an absolute argument
replaces the base, a relative one is appended component-wise. -/
def pathJoin (base q : RPath) : RPath :=
  if q.head? = some PathComp.rootDir then q else base ++ q

/-- `path.parent().unwrap_or(Path::new(""))` (main.rs:325): the path without
its final component; the empty path when there is no parent. -/
def pathParent (p : RPath) : RPath :=
  if p = [] ∨ p = [PathComp.rootDir] then [] else p.dropLast

/-- `Path::strip_prefix`: component-wise prefix removal, `none` on mismatch
(where Rust returns `Err(StripPrefixError)`). -/
def stripPrefixPath (p base : RPath) : Option RPath :=
  if base.isPrefixOf p then some (p.drop base.length) else none

/-- `Path::starts_with`: component-wise prefix test. -/
def pathStartsWith (p base : RPath) : Bool :=
  base.isPrefixOf p

/-- Split a character list on a separator, keeping empty pieces
(the behaviour of Rust `str::split`). -/
def splitOnCharAux (sep : Char) : List Char → List Char → List String
  | [], acc => [⟨acc.reverse⟩]
  | x :: rest, acc =>
      if x = sep then ⟨acc.reverse⟩ :: splitOnCharAux sep rest []
      else splitOnCharAux sep rest (x :: acc)

/-- Split a string on a separator character. -/
def splitOnChar (sep : Char) (s : String) : List String :=
  splitOnCharAux sep s.data []

/-- `str::starts_with` with a string pattern. -/
def strStartsWith (s pat : String) : Bool :=
  pat.data.isPrefixOf s.data

/-- Map one non-empty path segment to its component. -/
def compOfStr (t : String) : PathComp :=
  if t = "." then PathComp.curDir
  else if t = ".." then PathComp.parentDir
  else PathComp.normal t

/-- Parse a path string into components the way `Path::components` does on
Unix: segments are separated by slashes, empty segments vanish, a leading
slash is the root, and a current-directory segment survives only as the
very first component of a relative path. -/
def parsePath (s : String) : RPath :=
  let comps := ((splitOnChar '/' s).filter (fun t => t ≠ "")).map compOfStr
  if strStartsWith s "/" then
    PathComp.rootDir :: comps.filter (fun c => !(c == PathComp.curDir))
  else
    match comps with
    | PathComp.curDir :: rest =>
        PathComp.curDir :: rest.filter (fun c => !(c == PathComp.curDir))
    | l => l.filter (fun c => !(c == PathComp.curDir))

/-- `str::trim_start_matches` with a string pattern, on character lists.
The fuel is an upper bound on the number of removals; each removal of a
non-empty pattern strictly shortens the list, so `s.length` suffices. -/
def trimStartMatchesList : Nat → List Char → List Char → List Char
  | 0, s, _ => s
  | Nat.succ n, s, pat =>
      if pat ≠ [] ∧ pat.isPrefixOf s then
        trimStartMatchesList n (s.drop pat.length) pat
      else s

/-- `str::trim_start_matches`: repeatedly remove the pattern from the front
while it matches. -/
def trimStartMatches (s pat : String) : String :=
  ⟨trimStartMatchesList s.data.length s.data pat.data⟩

/-- `str::trim`: drop whitespace from both ends. -/
def strTrim (s : String) : String :=
  ⟨((s.data.dropWhile Char.isWhitespace).reverse.dropWhile Char.isWhitespace).reverse⟩

/-- Drop one trailing carriage return, as `BufRead::lines` does on a line
terminated by a carriage return plus line feed. -/
def stripCR (l : String) : String :=
  match l.data.getLast? with
  | some c => if c = '\r' then ⟨l.data.dropLast⟩ else l
  | none => l

/-- Line splitting of `BufRead::lines` / `str::lines` over characters: lines
are separated by line feeds, a trailing line terminator produces no extra
empty line, and a carriage return is stripped only from a line that was
terminated by a line feed. -/
def rustLinesChars : List Char → List Char → List String
  | [], acc => if acc = [] then [] else [⟨acc.reverse⟩]
  | c :: rest, acc =>
      if c = '\n' then stripCR ⟨acc.reverse⟩ :: rustLinesChars rest []
      else rustLinesChars rest (c :: acc)

/-- The list of lines of a decodable text file, as `BufRead::lines` yields
them (without their terminators). -/
def rustLines (s : String) : List String :=
  rustLinesChars s.data []

/-- The error kinds the program distinguishes (`io::ErrorKind`). -/
inductive ErrKind
  | notFound
  | invalidData
  | other
deriving DecidableEq, Repr

/-- A file's content as the line reader sees it: either fully decodable
text, or a stream of decodable lines followed by a read error of kind `k`
(for a binary file, `k` is `invalidData` and the raw bytes behind the
entry are what a byte-for-byte copy transports). -/
inductive FileEntry
  | text (content : String)
  | broken (goodLines : List String) (k : ErrKind)
deriving DecidableEq, Repr

/-- The filesystem: an association list from paths to file entries. -/
abbrev FS := List (RPath × FileEntry)

/-- Look a path up in the filesystem; `none` models a failing `File::open`. -/
def getFS (fs : FS) (p : RPath) : Option FileEntry :=
  match fs.find? (fun kv => kv.1 == p) with
  | some kv => some kv.2
  | none => none

/-- Write or overwrite one path. -/
def setFS (fs : FS) (p : RPath) (e : FileEntry) : FS :=
  if fs.any (fun kv => kv.1 == p) then
    fs.map (fun kv => if kv.1 == p then (p, e) else kv)
  else fs ++ [(p, e)]

/-- `std::fs::remove_file` on the model filesystem. -/
def removeFS (fs : FS) (p : RPath) : FS :=
  fs.filter (fun kv => !(kv.1 == p))

/-- The result of `fs::read_to_string`. -/
inductive ReadResult
  | ok (s : String)
  | err (k : ErrKind)
deriving DecidableEq, Repr

/-- `ReadResult.isOk`: whether a read succeeded. -/
def ReadResult.isOk : ReadResult → Bool
  | ReadResult.ok _ => true
  | ReadResult.err _ => false

/-- `fs::read_to_string`: the full text of a decodable file, `NotFound` for
a missing file, and the stream's error kind for an undecodable one. -/
def read_to_string (fs : FS) (p : RPath) : ReadResult :=
  match getFS fs p with
  | none => ReadResult.err ErrKind.notFound
  | some (FileEntry.text c) => ReadResult.ok c
  | some (FileEntry.broken _ k) => ReadResult.err k

/-- The lines a `BufReader` yields for an entry, and the error kind, if
any, that follows them. -/
def entryLines : FileEntry → List String × Option ErrKind
  | FileEntry.text c => (rustLines c, none)
  | FileEntry.broken gl k => (gl, some k)

/-- `io::Result<Vec<PathBuf>>`, the value `process_file` returns. -/
inductive PResult
  | ok (paths : List RPath)
  | err (k : ErrKind)
deriving DecidableEq, Repr

/-- The single write `process_file` may perform on the filesystem. -/
inductive WriteEffect
  | none
  | writeText (out : RPath) (content : String)
  | copyFile (srcPath out : RPath)
deriving DecidableEq, Repr

/-- Apply a write effect to the filesystem (`File::create` plus
`write_all`, or `fs::copy` which transports the source entry verbatim). -/
def runEffect (fs : FS) : WriteEffect → FS
  | WriteEffect.none => fs
  | WriteEffect.writeText out c => setFS fs out (FileEntry.text c)
  | WriteEffect.copyFile s out =>
      match getFS fs s with
      | some e => setFS fs out e
      | Option.none => fs

/-- One iteration of `process_file`'s loop body for a successfully read
line (main.rs:329-365): a line that starts with the include prefix is a
directive; its remainder, trimmed, is joined to the containing file's
directory, the referenced file's text replaces the line on success while
the line itself is kept on failure, and the normalized resolved path is
recorded either way; any other line is copied.  A line feed follows every
emitted line (main.rs:389). -/
def processLine (fs : FS) (parent_dir : RPath) (include_string : String)
    (line : String) : String × List RPath :=
  if strStartsWith line include_string then
    match read_to_string fs
        (pathJoin parent_dir (parsePath (strTrim (trimStartMatches line include_string)))) with
    | ReadResult.ok include_content =>
        (include_content ++ "\n",
         [normalize_path (pathJoin parent_dir (parsePath (strTrim (trimStartMatches line include_string))))])
    | ReadResult.err _ =>
        (line ++ "\n",
         [normalize_path (pathJoin parent_dir (parsePath (strTrim (trimStartMatches line include_string))))])
  else (line ++ "\n", [])

/-- `process_file` (main.rs:309-400).  Open failure is returned at once with
no write.  Otherwise the decodable lines are processed in order; if the
line stream then fails, the accumulated text is discarded and — only when
verbose diagnostics are on and the kind is `InvalidData` — the file is
copied byte-for-byte and an empty include list returned; any other stream
failure (and an `InvalidData` one without verbose) is returned as the
error with nothing written.  A fully decoded file is written to the
output path and the recorded include paths returned. -/
def process_file (fs : FS) (path out_path : RPath) (include_string : String)
    (verbose : Bool) : PResult × WriteEffect :=
  match getFS fs path with
  | none => (PResult.err ErrKind.notFound, WriteEffect.none)
  | some entry =>
      let parent_dir := pathParent path
      let glines := (entryLines entry).1
      let acc := glines.foldl
        (fun (a : String × List RPath) line =>
          let pl := processLine fs parent_dir include_string line
          (a.1 ++ pl.1, a.2 ++ pl.2)) ("", [])
      match (entryLines entry).2 with
      | some k =>
          if k = ErrKind.invalidData ∧ verbose = true then
            (PResult.ok [], WriteEffect.copyFile path out_path)
          else (PResult.err k, WriteEffect.none)
      | Option.none => (PResult.ok acc.2, WriteEffect.writeText out_path acc.1)

/-- The dependency graph `included_files` (main.rs:110): a map from an
included file's path (relative to the source root) to the set of files
that include it.  Modelled as an association list whose values are
duplicate-free lists. -/
abbrev Graph := List (RPath × List RPath)

/-- `HashMap::get` on the graph. -/
def lookupG (g : Graph) (k : RPath) : Option (List RPath) :=
  match g.find? (fun kv => kv.1 == k) with
  | some kv => some kv.2
  | none => none

/-- `included_files.entry(k).or_insert_with(HashSet::new).insert(v)`:
create the entry if missing, then add the includer if not yet present. -/
def insertEdge (g : Graph) (k v : RPath) : Graph :=
  if g.any (fun kv => kv.1 == k) then
    g.map (fun kv => if kv.1 == k then (kv.1, if v ∈ kv.2 then kv.2 else kv.2 ++ [v]) else kv)
  else g ++ [(k, [v])]

/-- The configuration the watch loop works with: the raw source and target
arguments, their canonicalized absolute forms, the include prefix string
and the verbose flag. -/
structure WatchConfig where
  src : RPath
  target : RPath
  absSrc : RPath
  absTarget : RPath
  includeString : String
  verbose : Bool
deriving DecidableEq, Repr

/-- The dispatcher's mutable state: the dependency graph and the
filesystem it reads and writes. -/
structure WState where
  graph : Graph
  fs : FS
deriving DecidableEq, Repr

/-- The edge-recording loop over a change event's returned include list
(main.rs:206-216): an include path that resolves against the canonical
source root records an edge to the just-expanded file; one that does not
resolve is merely logged when verbose is on — but when verbose is off the
code unwraps the failed resolution and panics, modelled as `none`. -/
def insertEdges (cfg : WatchConfig) (relative_file : RPath) :
    List RPath → Graph → Option Graph
  | [], g => some g
  | included :: rest, g =>
      match stripPrefixPath included cfg.absSrc with
      | some ri => insertEdges cfg relative_file rest (insertEdge g ri relative_file)
      | none =>
          if cfg.verbose then insertEdges cfg relative_file rest g
          else none

/-- The changed-file block of a create/modify event (main.rs:196-224),
for an already-normalized path.  A path that does not resolve against the
canonical source root is logged and skipped when verbose is on, but is
unwrapped — a panic, modelled as `none` — when verbose is off.  A resolved
path is expanded to its mirrored output; on success the returned include
list feeds the graph, on failure only a diagnostic is printed.  The second
component of the result lists the files `process_file` was invoked on. -/
def processChangedFile (cfg : WatchConfig) (st : WState) (file : RPath) :
    Option (WState × List RPath) :=
  match stripPrefixPath file cfg.absSrc with
  | none => if cfg.verbose then some (st, []) else none
  | some relative_file =>
      match process_file st.fs file (pathJoin cfg.target relative_file)
          cfg.includeString cfg.verbose with
      | (PResult.ok includes, eff) =>
          match insertEdges cfg relative_file includes st.graph with
          | none => none
          | some g1 => some ({ graph := g1, fs := runEffect st.fs eff }, [file])
      | (PResult.err _, eff) =>
          some ({ graph := st.graph, fs := runEffect st.fs eff }, [file])

/-- The dependent-regeneration loop (main.rs:227-256): each recorded
includer of the changed file is re-expanded from the raw source root to
the raw target root; its returned include list is discarded and every
failure is only reported.  Returns the updated filesystem and the list of
re-expanded source paths. -/
def reprocessDeps (cfg : WatchConfig) : List RPath → FS → FS × List RPath
  | [], fs => (fs, [])
  | dep :: rest, fs =>
      let pr := process_file fs (pathJoin cfg.src dep) (pathJoin cfg.target dep)
        cfg.includeString cfg.verbose
      let r := reprocessDeps cfg rest (runEffect fs pr.2)
      (r.1, pathJoin cfg.src dep :: r.2)

/-- The dependent-lookup step of a change event (main.rs:225-257): the
changed path, resolved against the canonical source root where possible,
is looked up in the graph, and every recorded includer is re-expanded. -/
def reprocessDependents (cfg : WatchConfig) (st : WState) (file : RPath) :
    WState × List RPath :=
  match lookupG st.graph ((stripPrefixPath file cfg.absSrc).getD file) with
  | none => (st, [])
  | some deps =>
      let r := reprocessDeps cfg deps st.fs
      ({ st with fs := r.1 }, r.2)

/-- The outcome of handling one create/modify event path: either the
dispatcher aborts (a panic in the handler) or it continues with an
updated state, carrying the list of source files that were expanded. -/
inductive ChangeOutcome
  | aborted
  | continued (st : WState) (trace : List RPath)
deriving DecidableEq, Repr

/-- Handling of one create/modify event path (main.rs:189-260): the path
is normalized, a path under the canonical target root is discarded with
no effect at all, and any other path is expanded and its recorded
dependents are re-expanded. -/
def handleChangePath (cfg : WatchConfig) (st : WState) (p : RPath) : ChangeOutcome :=
  if pathStartsWith (normalize_path p) cfg.absTarget then ChangeOutcome.continued st []
  else
    match processChangedFile cfg st (normalize_path p) with
    | none => ChangeOutcome.aborted
    | some str =>
        ChangeOutcome.continued (reprocessDependents cfg str.1 (normalize_path p)).1
          (str.2 ++ (reprocessDependents cfg str.1 (normalize_path p)).2)

/-- The outcome of handling one remove event path. -/
inductive RemoveOutcome
  | aborted
  | continued (fs : FS)
deriving DecidableEq, Repr

/-- Handling of one remove event path (main.rs:163-187): the path is
normalized and resolved against the canonical source root by an
`unwrap` — a failure panics, modelled as `aborted`.  The mirrored target
file is deleted when it exists, is a file and lies under the raw target
root (deletion always succeeds in this sequential model, so the `expect`
around it cannot fire here). -/
def handleRemovePath (cfg : WatchConfig) (fs : FS) (p : RPath) : RemoveOutcome :=
  match stripPrefixPath (normalize_path p) cfg.absSrc with
  | none => RemoveOutcome.aborted
  | some rel =>
      let target_file := pathJoin cfg.target rel
      if (getFS fs target_file).isSome ∧ pathStartsWith target_file cfg.target = true then
        RemoveOutcome.continued (removeFS fs target_file)
      else RemoveOutcome.continued fs

/-- Modelled from the spec's words only (section 3, "after trimming", and
section 6, "trimmed-left content"): left-trimming of a line, used solely
to compare the spec's directive-recognition rule with the code's. -/
def specTrimmedLeft (s : String) : String :=
  ⟨s.data.dropWhile Char.isWhitespace⟩

/-- C1: the claim says a file with an undecodable line is copied verbatim
and reported as success regardless of any other configuration.  The code
contradicts it (and its own crate documentation): the byte-for-byte copy
and the `Ok` return sit inside the `if verbose` block (main.rs:368-374),
so with verbose off `process_file` returns the hard `InvalidData` error
and writes nothing.  This theorem evaluates the code's behaviour at the
failing input. -/
theorem binary_nonverbose_hard_failure :
    process_file [([pn "b.bin"], FileEntry.broken [] ErrKind.invalidData)]
        [pn "b.bin"] [pn "t", pn "b.bin"] "--include" false =
      (PResult.err ErrKind.invalidData, WriteEffect.none) := by
  decide

/-- C2: the claim says the result of `process_file` and its filesystem
effects are identical for verbose on and off.  On an input file with an
undecodable line the two runs differ: verbose on copies the file and
returns success with an empty include list, verbose off returns the
`InvalidData` error and writes nothing, and the resulting filesystems
differ. -/
theorem verbose_changes_binary_result :
    process_file [([pn "c.bin"], FileEntry.broken [] ErrKind.invalidData)]
        [pn "c.bin"] [pn "t", pn "c.bin"] "--include" true =
      (PResult.ok [], WriteEffect.copyFile [pn "c.bin"] [pn "t", pn "c.bin"]) ∧
    process_file [([pn "c.bin"], FileEntry.broken [] ErrKind.invalidData)]
        [pn "c.bin"] [pn "t", pn "c.bin"] "--include" false =
      (PResult.err ErrKind.invalidData, WriteEffect.none) ∧
    runEffect [([pn "c.bin"], FileEntry.broken [] ErrKind.invalidData)]
        (process_file [([pn "c.bin"], FileEntry.broken [] ErrKind.invalidData)]
          [pn "c.bin"] [pn "t", pn "c.bin"] "--include" true).2 ≠
      runEffect [([pn "c.bin"], FileEntry.broken [] ErrKind.invalidData)]
        (process_file [([pn "c.bin"], FileEntry.broken [] ErrKind.invalidData)]
          [pn "c.bin"] [pn "t", pn "c.bin"] "--include" false).2 := by
  refine ⟨by decide, by decide, by decide⟩

/-- C3: expanding a source file whose content is the line
`--include greeting.txt` followed by the line `Hello.`, with
`greeting.txt` in the same directory holding the single line `Hi there.`,
writes exactly the bytes `Hi there.\nHello.\n` to the output path (for
either setting of the verbose flag), and records the include path. -/
theorem concrete_include_expansion :
    process_file
        [([pn "main.txt"], FileEntry.text "--include greeting.txt\nHello.\n"),
         ([pn "greeting.txt"], FileEntry.text "Hi there.")]
        [pn "main.txt"] [pn "t", pn "main.txt"] "--include" false =
      (PResult.ok [[pn "greeting.txt"]],
       WriteEffect.writeText [pn "t", pn "main.txt"] "Hi there.\nHello.\n") ∧
    process_file
        [([pn "main.txt"], FileEntry.text "--include greeting.txt\nHello.\n"),
         ([pn "greeting.txt"], FileEntry.text "Hi there.")]
        [pn "main.txt"] [pn "t", pn "main.txt"] "--include" true =
      (PResult.ok [[pn "greeting.txt"]],
       WriteEffect.writeText [pn "t", pn "main.txt"] "Hi there.\nHello.\n") := by
  refine ⟨by decide, by decide⟩

/-- C4 counterexample: the claim says a line is a directive if and only if
its content after left-trimming begins with the prefix.  The code tests
the raw line (main.rs:330) with no trimming: a line of two spaces followed
by the prefix and an existing include target is passed through unchanged
with an empty include list, although its left-trimmed content begins with
the prefix. -/
theorem leading_whitespace_directive_ignored :
    process_file
        [([pn "m.txt"], FileEntry.text "  --include g.txt"),
         ([pn "g.txt"], FileEntry.text "X")]
        [pn "m.txt"] [pn "t", pn "m.txt"] "--include" false =
      (PResult.ok [], WriteEffect.writeText [pn "t", pn "m.txt"] "  --include g.txt\n") ∧
    strStartsWith (specTrimmedLeft "  --include g.txt") "--include" = true := by
  refine ⟨by decide, by decide⟩

/-- C4 amended: a line of a text input file is treated as an include
directive if and only if the raw line itself begins with the configured
prefix string — no left-trimming is applied, so leading whitespace
prevents recognition.  Directive treatment is visible as the recorded
include path. -/
theorem directive_iff_raw_prefix_match (fs : FS) (parent_dir : RPath)
    (include_string line : String) :
    (processLine fs parent_dir include_string line).2 ≠ [] ↔
      strStartsWith line include_string = true := by
  unfold processLine
  cases h : strStartsWith line include_string with
  | false => simp [h]
  | true =>
      simp only [h, if_true]
      cases hr : read_to_string fs
          (pathJoin parent_dir (parsePath (strTrim (trimStartMatches line include_string)))) <;>
        simp

/-- C5: a directive line whose resolved target cannot be read (missing,
binary, or any other error) is emitted unchanged — followed by the line
feed every emitted line receives — and the normalized resolved path is
still recorded in the returned include list. -/
theorem failed_include_preserved (fs : FS) (parent_dir : RPath)
    (include_string line : String)
    (hdir : strStartsWith line include_string = true)
    (hfail : (read_to_string fs
        (pathJoin parent_dir (parsePath (strTrim (trimStartMatches line include_string))))).isOk
      = false) :
    processLine fs parent_dir include_string line =
      (line ++ "\n",
       [normalize_path (pathJoin parent_dir
         (parsePath (strTrim (trimStartMatches line include_string))))]) := by
  unfold processLine
  simp only [hdir, if_true]
  cases hr : read_to_string fs
      (pathJoin parent_dir (parsePath (strTrim (trimStartMatches line include_string)))) with
  | ok c => rw [hr] at hfail; simp [ReadResult.isOk] at hfail
  | err k => rfl

/-- C5 witness: a concrete missing include target. -/
theorem failed_include_preserved_witness :
    strStartsWith "--include missing.txt" "--include" = true ∧
    processLine [] [] "--include" "--include missing.txt" =
      ("--include missing.txt" ++ "\n",
       [normalize_path (pathJoin []
         (parsePath (strTrim (trimStartMatches "--include missing.txt" "--include"))))]) :=
  ⟨by decide, failed_include_preserved [] [] "--include" "--include missing.txt"
    (by decide) (by decide)⟩

/-- C9: when opening the input file fails, `process_file` returns the
typed error at once with no write effect, so the filesystem — in
particular any previous content of the output path — is left unchanged. -/
theorem open_failure_writes_nothing (fs : FS) (path out_path : RPath)
    (include_string : String) (verbose : Bool)
    (h : getFS fs path = none) :
    process_file fs path out_path include_string verbose =
      (PResult.err ErrKind.notFound, WriteEffect.none) ∧
    runEffect fs (process_file fs path out_path include_string verbose).2 = fs := by
  have h1 : process_file fs path out_path include_string verbose =
      (PResult.err ErrKind.notFound, WriteEffect.none) := by
    unfold process_file
    rw [h]
  exact ⟨h1, by rw [h1]; rfl⟩

/-- C9 witness: a concrete missing input file, with a previous output file
present and untouched. -/
theorem open_failure_writes_nothing_witness :
    getFS [([pn "t", pn "old.txt"], FileEntry.text "old")] [pn "old.txt"] = none ∧
    (process_file [([pn "t", pn "old.txt"], FileEntry.text "old")]
        [pn "old.txt"] [pn "t", pn "old.txt"] "--include" false =
      (PResult.err ErrKind.notFound, WriteEffect.none) ∧
    runEffect [([pn "t", pn "old.txt"], FileEntry.text "old")]
        (process_file [([pn "t", pn "old.txt"], FileEntry.text "old")]
          [pn "old.txt"] [pn "t", pn "old.txt"] "--include" false).2 =
      [([pn "t", pn "old.txt"], FileEntry.text "old")]) :=
  ⟨by decide, open_failure_writes_nothing [([pn "t", pn "old.txt"], FileEntry.text "old")]
    [pn "old.txt"] [pn "t", pn "old.txt"] "--include" false (by decide)⟩

/-- C6: a create/modify event path whose normalized form lies under the
canonical target root is discarded before any expansion or graph update:
the dispatcher state is returned unchanged and no file is processed. -/
theorem target_event_discarded (cfg : WatchConfig) (st : WState) (p : RPath)
    (h : pathStartsWith (normalize_path p) cfg.absTarget = true) :
    handleChangePath cfg st p = ChangeOutcome.continued st [] := by
  unfold handleChangePath
  simp [h]

/-- C6 witness: a concrete event for a freshly written output file under
the target root. -/
theorem target_event_discarded_witness :
    pathStartsWith
        (normalize_path [PathComp.rootDir, pn "t", pn "o.txt"])
        ({ src := [pn "s"], target := [pn "t"],
           absSrc := [PathComp.rootDir, pn "s"], absTarget := [PathComp.rootDir, pn "t"],
           includeString := "--include", verbose := false } : WatchConfig).absTarget = true ∧
    handleChangePath
        { src := [pn "s"], target := [pn "t"],
          absSrc := [PathComp.rootDir, pn "s"], absTarget := [PathComp.rootDir, pn "t"],
          includeString := "--include", verbose := false }
        ⟨[], []⟩ [PathComp.rootDir, pn "t", pn "o.txt"] =
      ChangeOutcome.continued ⟨[], []⟩ [] :=
  ⟨by decide, target_event_discarded
    { src := [pn "s"], target := [pn "t"],
      absSrc := [PathComp.rootDir, pn "s"], absTarget := [PathComp.rootDir, pn "t"],
      includeString := "--include", verbose := false }
    ⟨[], []⟩ [PathComp.rootDir, pn "t", pn "o.txt"] (by decide)⟩

/-- A path all of whose components are named segments. -/
def normalOnly (l : RPath) : Prop :=
  ∀ c ∈ l, ∃ s, c = PathComp.normal s

/-- The shape `normalize_path` maintains: named segments only, possibly
behind a single leading root component. -/
def resShape (l : RPath) : Prop :=
  normalOnly l ∨ ∃ t, l = PathComp.rootDir :: t ∧ normalOnly t

/-- Dropping the last component preserves `normalOnly`. -/
theorem normalOnly_dropLast (l : RPath) (h : normalOnly l) : normalOnly l.dropLast :=
  fun c hc => h c ((List.dropLast_sublist l).subset hc)

/-- `popPath` preserves the result shape. -/
theorem resShape_popPath (l : RPath) (h : resShape l) : resShape (popPath l) := by
  unfold popPath
  split
  · exact h
  · next hne =>
    rcases h with h | ⟨t, rfl, ht⟩
    · exact Or.inl (normalOnly_dropLast l h)
    · refine Or.inr ⟨t.dropLast, ?_, normalOnly_dropLast t ht⟩
      cases t with
      | nil => exact absurd (Or.inr rfl) hne
      | cons b t' => rfl

/-- Every step of the normalization loop preserves the result shape. -/
theorem resShape_normStep (r : RPath) (c : PathComp) (h : resShape r) :
    resShape (normStep r c) := by
  cases c with
  | rootDir => exact Or.inr ⟨[], rfl, fun c hc => absurd hc (List.not_mem_nil c)⟩
  | curDir => exact h
  | parentDir => exact resShape_popPath r h
  | normal s =>
      have hpush : pushComp r (PathComp.normal s) = r ++ [PathComp.normal s] := by
        simp [pushComp]
      show resShape (pushComp r (PathComp.normal s))
      rw [hpush]
      rcases h with h | ⟨t, rfl, ht⟩
      · refine Or.inl fun c hc => ?_
        rcases List.mem_append.mp hc with h1 | h2
        · exact h c h1
        · exact ⟨s, List.mem_singleton.mp h2⟩
      · refine Or.inr ⟨t ++ [PathComp.normal s], rfl, fun c hc => ?_⟩
        rcases List.mem_append.mp hc with h1 | h2
        · exact ht c h1
        · exact ⟨s, List.mem_singleton.mp h2⟩

/-- The normalization fold preserves the result shape from any start. -/
theorem resShape_foldl (p : RPath) :
    ∀ r, resShape r → resShape (p.foldl normStep r) := by
  induction p with
  | nil => exact fun r hr => hr
  | cons c rest ih => exact fun r hr => ih (normStep r c) (resShape_normStep r c hr)

/-- The result of `normalize_path` has the result shape. -/
theorem resShape_normalize (p : RPath) : resShape (normalize_path p) :=
  resShape_foldl p [] (Or.inl fun c hc => absurd hc (List.not_mem_nil c))

/-- Folding the normalization step over named segments only appends them. -/
theorem foldl_normStep_normals (l : RPath) (hl : normalOnly l) :
    ∀ r, List.foldl normStep r l = r ++ l := by
  induction l with
  | nil => intro r; simp
  | cons c rest ih =>
      intro r
      obtain ⟨s, rfl⟩ := hl c (List.mem_cons_self c rest)
      have hstep : normStep r (PathComp.normal s) = r ++ [PathComp.normal s] := by
        simp [normStep, pushComp]
      rw [List.foldl_cons, hstep, ih (fun c hc => hl c (List.mem_cons_of_mem _ hc))]
      simp

/-- A path already in result shape is a fixed point of `normalize_path`. -/
theorem normalize_fixed (l : RPath) (h : resShape l) : normalize_path l = l := by
  rcases h with h | ⟨t, rfl, ht⟩
  · unfold normalize_path
    rw [foldl_normStep_normals l h []]
    simp
  · unfold normalize_path
    rw [List.foldl_cons]
    have hroot : normStep [] PathComp.rootDir = [PathComp.rootDir] := by
      simp [normStep, pushComp]
    rw [hroot, foldl_normStep_normals t ht [PathComp.rootDir]]
    rfl

/-- C10: `normalize_path` is idempotent, because its result never contains
a current-directory or parent-directory component. -/
theorem normalize_path_idempotent (p : RPath) :
    normalize_path (normalize_path p) = normalize_path p ∧
    ∀ c ∈ normalize_path p, c ≠ PathComp.curDir ∧ c ≠ PathComp.parentDir := by
  refine ⟨normalize_fixed _ (resShape_normalize p), fun c hc => ?_⟩
  rcases resShape_normalize p with h | ⟨t, heq, ht⟩
  · obtain ⟨s, rfl⟩ := h c hc
    exact ⟨fun h2 => PathComp.noConfusion h2, fun h2 => PathComp.noConfusion h2⟩
  · rw [heq] at hc
    rcases List.mem_cons.mp hc with rfl | h2
    · exact ⟨fun h2 => PathComp.noConfusion h2, fun h2 => PathComp.noConfusion h2⟩
    · obtain ⟨s, rfl⟩ := ht c h2
      exact ⟨fun h2 => PathComp.noConfusion h2, fun h2 => PathComp.noConfusion h2⟩

/-- The dependent-regeneration loop re-expands exactly the listed
dependents, in order, from the raw source root. -/
theorem reprocessDeps_trace (cfg : WatchConfig) :
    ∀ (deps : List RPath) (fs : FS),
      (reprocessDeps cfg deps fs).2 = deps.map (fun d => pathJoin cfg.src d) := by
  intro deps
  induction deps with
  | nil => intro fs; rfl
  | cons d rest ih =>
      intro fs
      unfold reprocessDeps
      simp only [List.map_cons]
      rw [ih]

/-- C7: when a change event for a file is handled (not discarded, not
panicking) and the dependency graph after the changed file's own expansion
records `deps` as its direct dependents, the dispatcher re-expands exactly
the changed file and those direct dependents: any `b` among them is
re-expanded within the event, while a file `c` that is not a direct
dependent (and was not the changed file itself) is not re-expanded within
the same event. -/
theorem one_hop_propagation (cfg : WatchConfig) (st st1 : WState) (p : RPath)
    (tr1 deps : List RPath) (b c : RPath)
    (hnt : pathStartsWith (normalize_path p) cfg.absTarget = false)
    (hpr : processChangedFile cfg st (normalize_path p) = some (st1, tr1))
    (hdeps : lookupG st1.graph
      ((stripPrefixPath (normalize_path p) cfg.absSrc).getD (normalize_path p)) = some deps)
    (hb : b ∈ deps)
    (hc : ∀ d ∈ deps, pathJoin cfg.src d ≠ pathJoin cfg.src c)
    (hctr : pathJoin cfg.src c ∉ tr1) :
    handleChangePath cfg st p =
      ChangeOutcome.continued (reprocessDependents cfg st1 (normalize_path p)).1
        (tr1 ++ deps.map (fun d => pathJoin cfg.src d)) ∧
    pathJoin cfg.src b ∈ tr1 ++ deps.map (fun d => pathJoin cfg.src d) ∧
    pathJoin cfg.src c ∉ tr1 ++ deps.map (fun d => pathJoin cfg.src d) := by
  have htr : (reprocessDependents cfg st1 (normalize_path p)).2 =
      deps.map (fun d => pathJoin cfg.src d) := by
    unfold reprocessDependents
    rw [hdeps]
    simp [reprocessDeps_trace]
  refine ⟨?_, ?_, ?_⟩
  · unfold handleChangePath
    rw [hpr]
    simp [hnt, htr]
  · exact List.mem_append_right _ (List.mem_map_of_mem _ hb)
  · intro hmem
    rcases List.mem_append.mp hmem with h1 | h2
    · exact hctr h1
    · rcases List.mem_map.mp h2 with ⟨d, hd, hde⟩
      exact hc d hd hde

/-- C7 witness: graph edges record that `b.txt` includes `a.txt` and
`c.txt` includes `b.txt`; a change event for `a.txt` re-expands `a.txt`
and `b.txt` but not `c.txt`. -/
theorem one_hop_propagation_witness :
    handleChangePath
        { src := [pn "s"], target := [pn "t"],
          absSrc := [PathComp.rootDir, pn "s"], absTarget := [PathComp.rootDir, pn "t"],
          includeString := "--include", verbose := false }
        ⟨[([pn "a.txt"], [[pn "b.txt"]]), ([pn "b.txt"], [[pn "c.txt"]])], []⟩
        [PathComp.rootDir, pn "s", pn "a.txt"] =
      ChangeOutcome.continued
        (reprocessDependents
          { src := [pn "s"], target := [pn "t"],
            absSrc := [PathComp.rootDir, pn "s"], absTarget := [PathComp.rootDir, pn "t"],
            includeString := "--include", verbose := false }
          ⟨[([pn "a.txt"], [[pn "b.txt"]]), ([pn "b.txt"], [[pn "c.txt"]])], []⟩
          (normalize_path [PathComp.rootDir, pn "s", pn "a.txt"])).1
        ([[PathComp.rootDir, pn "s", pn "a.txt"]] ++
          [[pn "b.txt"]].map (fun d => pathJoin [pn "s"] d)) ∧
    pathJoin [pn "s"] [pn "b.txt"] ∈
      [[PathComp.rootDir, pn "s", pn "a.txt"]] ++
        [[pn "b.txt"]].map (fun d => pathJoin [pn "s"] d) ∧
    pathJoin [pn "s"] [pn "c.txt"] ∉
      [[PathComp.rootDir, pn "s", pn "a.txt"]] ++
        [[pn "b.txt"]].map (fun d => pathJoin [pn "s"] d) :=
  one_hop_propagation
    { src := [pn "s"], target := [pn "t"],
      absSrc := [PathComp.rootDir, pn "s"], absTarget := [PathComp.rootDir, pn "t"],
      includeString := "--include", verbose := false }
    ⟨[([pn "a.txt"], [[pn "b.txt"]]), ([pn "b.txt"], [[pn "c.txt"]])], []⟩
    ⟨[([pn "a.txt"], [[pn "b.txt"]]), ([pn "b.txt"], [[pn "c.txt"]])], []⟩
    [PathComp.rootDir, pn "s", pn "a.txt"]
    [[PathComp.rootDir, pn "s", pn "a.txt"]] [[pn "b.txt"]]
    [pn "b.txt"] [pn "c.txt"]
    (by decide) (by decide) (by decide) (by decide) (by decide) (by decide)

/-- The edge-recording loop cannot reach its panicking arm when verbose
diagnostics are on. -/
theorem insertEdges_ne_none (cfg : WatchConfig) (relative_file : RPath)
    (hv : cfg.verbose = true) :
    ∀ (incs : List RPath) (g : Graph),
      insertEdges cfg relative_file incs g ≠ none := by
  intro incs
  induction incs with
  | nil => intro g h; cases h
  | cons a rest ih =>
      intro g
      unfold insertEdges
      split
      · exact ih _
      · rw [hv]
        simp only [if_true]
        exact ih _

/-- The changed-file block cannot reach either of its panicking arms when
verbose diagnostics are on. -/
theorem processChangedFile_ne_none (cfg : WatchConfig) (st : WState) (file : RPath)
    (hv : cfg.verbose = true) :
    processChangedFile cfg st file ≠ none := by
  unfold processChangedFile
  split
  · rw [hv]
    simp
  · split
    · split
      · next heq => exact absurd heq (insertEdges_ne_none cfg _ hv _ _)
      · simp
    · simp

/-- C8 amended: per-file failures leave the dispatcher running except for
the handler's unwraps on path resolution: with verbose on, handling a
create/modify event path never aborts (expansion failures, missing or
binary includes and unresolvable paths are only logged), and a remove
event path that resolves against the canonical source root never aborts;
but an unresolvable remove path — and, with verbose off, an unresolvable
create/modify or include path — panics and terminates the dispatcher. -/
theorem dispatcher_isolation_amended (cfg : WatchConfig) (st : WState) (fs : FS)
    (p q : RPath)
    (hv : cfg.verbose = true)
    (hq : (stripPrefixPath (normalize_path q) cfg.absSrc).isSome = true) :
    handleChangePath cfg st p ≠ ChangeOutcome.aborted ∧
    handleRemovePath cfg fs q ≠ RemoveOutcome.aborted := by
  constructor
  · unfold handleChangePath
    split
    · simp
    · split
      · next heq => exact absurd heq (processChangedFile_ne_none cfg st _ hv)
      · simp
  · unfold handleRemovePath
    cases hs : stripPrefixPath (normalize_path q) cfg.absSrc with
    | none => rw [hs] at hq; simp at hq
    | some rel =>
        dsimp only
        split <;> simp

/-- C8 amended witness: a verbose configuration with event paths that
resolve against the source root. -/
theorem dispatcher_isolation_amended_witness :
    (stripPrefixPath
        (normalize_path [PathComp.rootDir, pn "s", pn "a.txt"])
        [PathComp.rootDir, pn "s"]).isSome = true ∧
    (handleChangePath
        { src := [pn "s"], target := [pn "t"],
          absSrc := [PathComp.rootDir, pn "s"], absTarget := [PathComp.rootDir, pn "t"],
          includeString := "--include", verbose := true }
        ⟨[], []⟩ [PathComp.rootDir, pn "s", pn "a.txt"] ≠ ChangeOutcome.aborted ∧
    handleRemovePath
        { src := [pn "s"], target := [pn "t"],
          absSrc := [PathComp.rootDir, pn "s"], absTarget := [PathComp.rootDir, pn "t"],
          includeString := "--include", verbose := true }
        [] [PathComp.rootDir, pn "s", pn "a.txt"] ≠ RemoveOutcome.aborted) :=
  ⟨by decide, dispatcher_isolation_amended
    { src := [pn "s"], target := [pn "t"],
      absSrc := [PathComp.rootDir, pn "s"], absTarget := [PathComp.rootDir, pn "t"],
      includeString := "--include", verbose := true }
    ⟨[], []⟩ [] [PathComp.rootDir, pn "s", pn "a.txt"] [PathComp.rootDir, pn "s", pn "a.txt"]
    rfl (by decide)⟩

/-- C8 counterexample: the claim says no per-file failure terminates the
dispatcher, naming in particular a remove-event path that cannot be
related to the source root.  In the code such a remove path hits
`strip_prefix(..).unwrap()` (main.rs:167) and panics, and a create/modify
path that cannot be related to the source root hits the unwrap on the
failed resolution (main.rs:201) when verbose is off and panics too. -/
theorem unresolvable_event_path_aborts :
    handleRemovePath
        { src := [pn "s"], target := [pn "t"],
          absSrc := [PathComp.rootDir, pn "s"], absTarget := [PathComp.rootDir, pn "t"],
          includeString := "--include", verbose := false }
        [] [PathComp.rootDir, pn "x", pn "f.txt"] = RemoveOutcome.aborted ∧
    handleChangePath
        { src := [pn "s"], target := [pn "t"],
          absSrc := [PathComp.rootDir, pn "s"], absTarget := [PathComp.rootDir, pn "t"],
          includeString := "--include", verbose := false }
        ⟨[], []⟩ [PathComp.rootDir, pn "x", pn "f.txt"] = ChangeOutcome.aborted := by
  refine ⟨by decide, by decide⟩
